import Mathlib

/-!
Verification of the inventory application (src/app.py) against its
natural-language specification.  Strings are modelled as lists of
characters; Python `str.upper`/`str.lower`/`str.strip` are modelled on the
ASCII fragment.  The numeric coercion of the `Cantidad` column
(`pd.to_numeric(..., errors="coerce")` then `.fillna(0).astype(int)`)
is modelled by `cellNum`: decimal numerals with optional sign, fraction
and exponent are parsed and truncated toward zero by exact arithmetic,
`inf`/`infinity` literals and decimals beyond the IEEE-double overflow
boundary classify as infinite (on which `astype(int)` raises), and
everything else is NaN (0 after `fillna`).  The reader's type inference
on text cells (`pd.read_csv` / gspread numericise) is modelled for
integer-literal cells, which load as the integer's decimal rendering,
and for `textSafe` cells (non-empty, non-numeric, not NA or boolean
markers), which load verbatim; floating-point-literal text cells
re-render through float machinery that this embedding does not model and
no theorem below constrains.  Binary-float rounding of decimals given to
more than about sixteen significant digits, and platform-defined
float-to-int64 casts beyond 2^53, are likewise outside the model; every
theorem's hypotheses keep it inside the modelled domain.
-/

namespace Inventario

/-- Strings are lists of characters. -/
abbrev Str := List Char

/-- ASCII whitespace recognised by Python's `str.strip`. -/
def isWs (c : Char) : Bool :=
  c == ' ' || c == '\t' || c == '\n' || c == '\r' || c == '\x0b' || c == '\x0c'

/-- Remove leading whitespace (left part of `str.strip`). -/
def trimL (s : Str) : Str := s.dropWhile isWs

/-- Remove trailing whitespace (right part of `str.strip`). -/
def trimR (s : Str) : Str := (s.reverse.dropWhile isWs).reverse

/-- Python `str.strip()`: drop leading and trailing whitespace. -/
def pyStrip (s : Str) : Str := trimR (trimL s)

/-- The ASCII lower/upper case letter table used by `str.lower`/`str.upper`. -/
def casePairs : List (Char × Char) :=
  [ ('a', 'A'), ('b', 'B'), ('c', 'C'), ('d', 'D'), ('e', 'E'), ('f', 'F'),
    ('g', 'G'), ('h', 'H'), ('i', 'I'), ('j', 'J'), ('k', 'K'), ('l', 'L'),
    ('m', 'M'), ('n', 'N'), ('o', 'O'), ('p', 'P'), ('q', 'Q'), ('r', 'R'),
    ('s', 'S'), ('t', 'T'), ('u', 'U'), ('v', 'V'), ('w', 'W'), ('x', 'X'),
    ('y', 'Y'), ('z', 'Z') ]

/-- Uppercase one character (ASCII fragment of Python `str.upper`). -/
def upChar (c : Char) : Char :=
  match casePairs.find? (fun p => p.1 == c) with
  | some p => p.2
  | none => c

/-- Lowercase one character (ASCII fragment of Python `str.lower`). -/
def lowChar (c : Char) : Char :=
  match casePairs.find? (fun p => p.2 == c) with
  | some p => p.1
  | none => c

/-- Python `str.upper` on the ASCII fragment. -/
def pyUpper (s : Str) : Str := s.map upChar

/-- Python `str.lower` on the ASCII fragment. -/
def pyLower (s : Str) : Str := s.map lowChar

/-- Numeric value of a big-endian list of decimal digit characters. -/
def digitsVal (ds : Str) : Nat :=
  ds.foldl (fun a c => 10 * a + (c.toNat - 48)) 0

/-- Little-endian decimal digits of `m`, with explicit fuel so that the
function reduces by evaluation (`natDigitsRev m m = Nat.digits 10 m`). -/
def natDigitsRev (fuel m : Nat) : List Nat :=
  match fuel with
  | 0 => []
  | fuel + 1 => if m = 0 then [] else (m % 10) :: natDigitsRev fuel (m / 10)

/-- Decimal rendering of a natural number (Python `str` on `int`, n ≥ 0). -/
def natToChars (m : Nat) : Str :=
  if m = 0 then [ '0' ] else ((natDigitsRev m m).map Nat.digitChar).reverse

/-- Decimal rendering of an integer (Python `str` on `int`). -/
def intToStr (n : Int) : Str :=
  if n < 0 then '-' :: natToChars n.natAbs else natToChars n.toNat

/-- Split an optional leading sign from a numeral. -/
def splitSign (s : Str) : Bool × Str :=
  match s with
  | [] => (false, [])
  | c :: r => if c = '-' then (true, r) else if c = '+' then (false, r) else (false, c :: r)

/-- Classification of one `Cantidad` cell under
`pd.to_numeric(..., errors="coerce")`. -/
inductive CellNum where
  | num (n : Int)
  | nan
  | inf
deriving DecidableEq, Repr

/-- The sign-stripped body spells `inf`/`infinity` (any case), which
Python's float parser reads as infinity. -/
def isInfBody (body : Str) : Bool :=
  pyLower body == ("inf").data || pyLower body == ("infinity").data

/-- Integer-part digits of the mantissa. -/
def mantIP (body : Str) : Str := body.takeWhile Char.isDigit

/-- What follows the integer-part digits. -/
def afterIP (body : Str) : Str := body.drop (mantIP body).length

/-- Fractional digits of the mantissa (after a decimal point). -/
def mantFP (body : Str) : Str :=
  match afterIP body with
  | '.' :: r => r.takeWhile Char.isDigit
  | _ => []

/-- What follows the whole mantissa. -/
def afterMant (body : Str) : Str :=
  match afterIP body with
  | '.' :: r => r.drop (r.takeWhile Char.isDigit).length
  | other => other

/-- The exponent part: `some (sign, digits)` when absent or well-formed
(`e`/`E`, optional sign, one or more digits consuming the rest), `none`
when malformed. -/
def expPart (body : Str) : Option (Bool × Str) :=
  match afterMant body with
  | [] => some (false, [])
  | c :: r =>
    if c = 'e' ∨ c = 'E' then
      if (splitSign r).2 ≠ [] ∧ (splitSign r).2.all Char.isDigit then
        some ((splitSign r).1, (splitSign r).2)
      else none
    else none

/-- The mantissa has at least one digit. -/
def mantOk (body : Str) : Bool := !(mantIP body).isEmpty || !(mantFP body).isEmpty

/-- Apply a sign to a magnitude. -/
def intSign (neg : Bool) (m : Nat) : Int := if neg then -(m : Int) else (m : Int)

/-- Truncation toward zero of the magnitude `D * 10 ^ (±ex - f)` where `f`
counts fractional digits, by exact arithmetic. -/
def truncSci (D f : Nat) (exNeg : Bool) (ex : Nat) : Nat :=
  if exNeg then D / 10 ^ (ex + f)
  else if f ≤ ex then D * 10 ^ (ex - f) else D / 10 ^ (f - ex)

/-- The exact value `D * 10 ^ (±ex - f)` reaches the IEEE-double
round-to-infinity boundary `2^1024 - 2^970`. -/
def sciOverflow (D f : Nat) (exNeg : Bool) (ex : Nat) : Bool :=
  if exNeg then decide ((2 ^ 1024 - 2 ^ 970) * 10 ^ (ex + f) ≤ D)
  else if f ≤ ex then decide (2 ^ 1024 - 2 ^ 970 ≤ D * 10 ^ (ex - f))
  else decide ((2 ^ 1024 - 2 ^ 970) * 10 ^ (f - ex) ≤ D)

/-- Classify the sign-stripped body of a cell. -/
def cellNumBody (neg : Bool) (body : Str) : CellNum :=
  if isInfBody body then CellNum.inf
  else
    match expPart body with
    | none => CellNum.nan
    | some (exNeg, exDs) =>
      if mantOk body then
        if sciOverflow (digitsVal (mantIP body ++ mantFP body)) (mantFP body).length
            exNeg (digitsVal exDs) then CellNum.inf
        else CellNum.num (intSign neg (truncSci
          (digitsVal (mantIP body ++ mantFP body)) (mantFP body).length
          exNeg (digitsVal exDs)))
      else CellNum.nan

/-- Classify a raw `Cantidad` cell: strip surrounding whitespace, split a
sign, then parse. -/
def cellNum (cs : Str) : CellNum :=
  cellNumBody (splitSign (pyStrip cs)).1 (splitSign (pyStrip cs)).2

/-- The cell carries an explicit leading minus sign. -/
def negSigned (cs : Str) : Bool := (splitSign (pyStrip cs)).1

/-- The integer a `Cantidad` cell contributes on the successful load path:
parsed values truncate, NaN becomes 0 after `fillna(0)` (the infinite case
never reaches this point, since `astype(int)` raises first). -/
def qtyVal (cs : Str) : Int :=
  match cellNum cs with
  | CellNum.num n => n
  | _ => 0

/-- The cell makes `astype(int)` raise (non-finite after `fillna`). -/
def isInfCell (cs : Str) : Bool :=
  match cellNum cs with
  | CellNum.inf => true
  | _ => false

/-- A `Cantidad` cell that keeps the loaded quantity non-negative on every
platform: non-numeric (loads as 0), or an unsigned numeral whose exact
truncation is at most `2^53` (within the exact float range, so the
program's float path cannot leave `[0, 2^63)`). -/
def qtyOkCell (cs : Str) : Bool :=
  match cellNum cs with
  | CellNum.nan => true
  | CellNum.num n => !(negSigned cs) && decide (0 ≤ n) && decide (n ≤ 2 ^ 53)
  | CellNum.inf => false

/-- An integer-literal cell as `pd.read_csv` (and gspread numericise)
re-type it: an optional sign then one or more digits, nothing else, within
the int64 range (beyond which the reader falls back to float, which this
embedding does not model). -/
def intLitVal (cs : Str) : Option Int :=
  if (splitSign cs).2 ≠ [] ∧ (splitSign cs).2.all Char.isDigit then
    if -(2 ^ 63) ≤ intSign (splitSign cs).1 (digitsVal (splitSign cs).2) ∧
        intSign (splitSign cs).1 (digitsVal (splitSign cs).2) < 2 ^ 63 then
      some (intSign (splitSign cs).1 (digitsVal (splitSign cs).2))
    else none
  else none

/-- A text cell as the reader hands it back: integer-literal cells are
re-typed and render as the integer, other modelled cells stay verbatim. -/
def readBackText (cs : Str) : Str :=
  match intLitVal cs with
  | some n => intToStr n
  | none => cs

/-- The default NA markers of `pd.read_csv`, read as NaN. -/
def naLiterals : List Str :=
  [ ("").data, ("#N/A").data, ("#N/A N/A").data, ("#NA").data,
    ("-1.#IND").data, ("-1.#QNAN").data, ("-NaN").data, ("-nan").data,
    ("1.#IND").data, ("1.#QNAN").data, ("<NA>").data, ("N/A").data,
    ("NA").data, ("NULL").data, ("NaN").data, ("None").data,
    ("n/a").data, ("nan").data, ("null").data ]

/-- The boolean literals `pd.read_csv` re-types. -/
def boolLiterals : List Str :=
  [ ("True").data, ("TRUE").data, ("False").data, ("FALSE").data ]

/-- A text cell the reader's type inference provably leaves verbatim:
not numeric-looking, not an NA marker (in particular non-empty), not a
boolean literal. -/
def textSafe (cs : Str) : Bool :=
  (match cellNum cs with
    | CellNum.nan => true
    | _ => false) &&
  !(naLiterals.contains cs) && !(boolLiterals.contains cs)

/-- Does the list contain two equal elements? -/
def hasDupB {α : Type} [DecidableEq α] : List α → Bool
  | [] => false
  | x :: xs => decide (x ∈ xs) || hasDupB xs

/-! ### Data model (src/app.py, `APP_COLUMNS` and one row of the table) -/

/-- One inventory row, with the fields of the `APP_COLUMNS` table. -/
structure Record where
  id : Str
  idSimilar : Str
  imagen : Str
  descripcion : Str
  unidad : Str
  cantidad : Int
  ubicacion : Str
deriving DecidableEq, Repr

def colID : Str := ("ID").data
def colIdSim : Str := ("ID Similar").data
def colImagen : Str := ("Imagen").data
def colDesc : Str := ("Descripción").data
def colUnidad : Str := ("Unidad").data
def colCant : Str := ("Cantidad").data
def colUbic : Str := ("Ubicación Física").data

/-- `APP_COLUMNS` of src/app.py. -/
def APP_COLUMNS : List Str :=
  [colID, colIdSim, colImagen, colDesc, colUnidad, colCant, colUbic]

def mayusculas : Str := ("Mayúsculas").data
def minusculas : Str := ("Minúsculas").data
/-- `_normalize_idsim(val, norm_case, strip_spaces)` of src/app.py. -/
def _normalize_idsim (val : Option Str) (norm_case : Str) (strip_spaces : Bool) : Str :=
  match val with
  | none => []
  | some v =>
    let s := if strip_spaces then pyStrip v else v
    if norm_case == mayusculas then pyUpper s
    else if norm_case == minusculas then pyLower s
    else s

/-- `_norm_text(s)` of src/app.py: strip then lowercase. -/
def _norm_text (s : Option Str) : Str :=
  match s with
  | none => []
  | some v => pyLower (pyStrip v)

/-- The normalized (description, location) key of one row, as built inside
`_has_dup_desc_ubic`. -/
def pairKey (r : Record) : Str × Str :=
  (_norm_text (some r.descripcion), _norm_text (some r.ubicacion))

/-- The normalized (description, location) keys of all rows. -/
def pairKeys (df : List Record) : List (Str × Str) := df.map pairKey

/-- `_has_dup_desc_ubic(df)` of src/app.py: true iff two rows share the
same normalized (Descripción, Ubicación Física) pair
(`duplicated(keep=False).any()`). -/
def _has_dup_desc_ubic (df : List Record) : Bool :=
  if df.isEmpty then false else hasDupB (pairKeys df)

/-! ### ID assignment (src/app.py lines 126-138) -/

/-- Model of `re.search(r"I-(\d+)", s)` followed by `int(...)` on the first
captured digit run: scan left to right for an `I`, `-`, digit pattern and
return the value of the maximal digit run. -/
def extractINum : Str → Option Nat
  | [] => none
  | c :: rest =>
    if c = 'I' ∧ rest.head? = some '-' ∧ rest.tail.takeWhile Char.isDigit ≠ [] then
      some (digitsVal (rest.tail.takeWhile Char.isDigit))
    else extractINum rest

/-- The numeric suffixes extracted from the `ID` column
(`df["ID"].str.extract(r"I-(\d+)")[0].dropna().astype(int).tolist()`). -/
def idNums (df : List Record) : List Nat :=
  df.filterMap (fun r => extractINum r.id)

/-- Zero-pad a natural number to at least four digits (`f"{n:04d}"`). -/
def pad4 (n : Nat) : Str :=
  List.replicate (4 - (natToChars n).length) '0' ++ natToChars n

/-- `_new_id(df)` of src/app.py. -/
def _new_id (df : List Record) : Str :=
  if df.isEmpty then ("I-0001").data
  else 'I' :: '-' ::
    pad4 (if (idNums df).isEmpty then 1 else (idNums df).foldl max 0 + 1)

/-! ### Storage adapter (src/app.py lines 64-123) -/

/-- A raw tabular state (CSV file contents or worksheet contents): a header
naming the columns and the data rows, with cells as strings. -/
structure RawTable where
  cols : List Str
  rows : List (List Str)
deriving DecidableEq, Repr

/-- The cell of `row` under column `c`, given the header `cols` (missing
cells read as the empty string). -/
def getCell (cols : List Str) (row : List Str) (c : Str) : Str :=
  match cols.findIdx? (fun c2 => c2 == c) with
  | some i => (row.get? i).getD []
  | none => []

/-- Build one `Record` from a raw row: text cells pass through the
reader's type inference (`readBackText`; for `ID` the subsequent
`astype(str)` renders a re-typed integer back to its decimal string),
`Cantidad` through `pd.to_numeric(..., errors="coerce").fillna(0)`
followed by `astype(int)` truncation (`qtyVal`). -/
def rowToRecord (cols : List Str) (row : List Str) : Record :=
  { id := readBackText (getCell cols row colID)
    idSimilar := readBackText (getCell cols row colIdSim)
    imagen := readBackText (getCell cols row colImagen)
    descripcion := readBackText (getCell cols row colDesc)
    unidad := readBackText (getCell cols row colUnidad)
    cantidad := qtyVal (getCell cols row colCant)
    ubicacion := readBackText (getCell cols row colUbic) }

/-- The shared load pipeline of `_read_from_gsheets`/`_load_local`
(src/app.py lines 67-77 and 95-103): synthesize missing columns when there
are no data rows, select `APP_COLUMNS`, coerce `Cantidad` and `ID`.
Assigning an empty column (`df[col] = []`) to a non-empty frame raises a
pandas `ValueError`, and `astype(int)` raises on a non-finite `Cantidad`
value surviving `fillna(0)` (e.g. an `inf` cell); both are modelled as
`Except.error ()`. -/
def coerceTable (t : RawTable) : Except Unit (List Record) :=
  if t.rows.isEmpty then Except.ok []
  else if APP_COLUMNS.all (fun c => t.cols.contains c) then
    if t.rows.any (fun row => isInfCell (getCell t.cols row colCant)) then
      Except.error ()
    else Except.ok (t.rows.map (rowToRecord t.cols))
  else Except.error ()

/-- State of the remote worksheet as seen by `ws.get_all_records()`:
either any API failure (exception) or the raw table. -/
inductive GsState where
  | failure
  | table (t : RawTable)
deriving DecidableEq, Repr

/-- `_read_from_gsheets(ws)` of src/app.py: the whole body is wrapped in
`try/except`, so every failure (API error or coercion error) yields the
empty record set together with a warning. -/
def _read_from_gsheets : GsState → List Record
  | GsState.failure => []
  | GsState.table t =>
    match coerceTable t with
    | Except.ok recs => recs
    | Except.error _ => []

/-- `_load_local()` of src/app.py: an absent file (`FileNotFoundError`) is
caught and yields the empty record set; any other error of the pipeline
propagates (only `FileNotFoundError` is caught). -/
def _load_local : Option RawTable → Except Unit (List Record)
  | none => Except.ok []
  | some t => coerceTable t

/-- Render one record as a row of strings in `APP_COLUMNS` order, as both
`df.to_csv` and `df.fillna("").astype(str)` do. -/
def renderRecord (r : Record) : List Str :=
  [r.id, r.idSimilar, r.imagen, r.descripcion, r.unidad,
   intToStr r.cantidad, r.ubicacion]

/-- The six text-valued fields of a record (everything except `Cantidad`). -/
def textFields (r : Record) : List Str :=
  [r.id, r.idSimilar, r.imagen, r.descripcion, r.unidad, r.ubicacion]

/-- `_save_local(df)` of src/app.py: the CSV file after `df.to_csv`. -/
def _save_local (recs : List Record) : Option RawTable :=
  some { cols := APP_COLUMNS, rows := recs.map renderRecord }

/-- `_write_to_gsheets(ws, df)` of src/app.py: the worksheet after
`clear()`, `append_row(APP_COLUMNS)` and `append_rows(values)`. -/
def _write_to_gsheets (recs : List Record) : GsState :=
  GsState.table { cols := APP_COLUMNS, rows := recs.map renderRecord }

/-! ### Add-item operation (src/app.py lines 264-284, `alta_form` submit) -/

/-- The candidate fields typed into the quick-add form. -/
structure Candidate where
  imagen : Str
  descripcion : Str
  unidad : Str
  cantidad : Int
  ubicacion : Str
  idSimilar : Str
deriving DecidableEq, Repr

/-- The probe row concatenated to the frame before the duplicate check
(placeholder id `"tmp"`, raw un-stripped fields). -/
def probeRow (c : Candidate) : Record :=
  { id := ("tmp").data
    idSimilar := c.idSimilar
    imagen := c.imagen
    descripcion := c.descripcion
    unidad := c.unidad
    cantidad := c.cantidad
    ubicacion := c.ubicacion }

/-- The submit handler of `alta_form`: build the probe set, run the
duplicate check, and on success append the new normalized row.  `none`
models the `st.error` branch (nothing appended, nothing saved). -/
def addItem (df : List Record) (c : Candidate) (norm_case : Str)
    (strip_spaces : Bool) : Option (List Record) :=
  if _has_dup_desc_ubic (df ++ [probeRow c]) then none
  else
    some (df ++
      [{ id := _new_id df
         idSimilar := _normalize_idsim (some c.idSimilar) norm_case strip_spaces
         imagen := pyStrip c.imagen
         descripcion := pyStrip c.descripcion
         unidad := pyStrip c.unidad
         cantidad := c.cantidad
         ubicacion := pyStrip c.ubicacion }])

/-- The in-memory frame after the submit handler (unchanged on the
duplicate-error branch). -/
def altaResult (df : List Record) (c : Candidate) (norm_case : Str)
    (strip_spaces : Bool) : List Record :=
  (addItem df c norm_case strip_spaces).getD df

/-- Was `save_data` called by the submit handler? -/
def altaSaved (df : List Record) (c : Candidate) (norm_case : Str)
    (strip_spaces : Bool) : Bool :=
  (addItem df c norm_case strip_spaces).isSome

/-! ### Record reconciliation (src/app.py lines 309-340, data_editor merge) -/

/-- Overwrite the mutable fields of row `r` from edited row `e`, applying
`_normalize_idsim` to `ID Similar` (the body of the update loop). -/
def updFields (r e : Record) (norm_case : Str) (strip_spaces : Bool) : Record :=
  { r with
    imagen := e.imagen
    descripcion := e.descripcion
    unidad := e.unidad
    cantidad := e.cantidad
    ubicacion := e.ubicacion
    idSimilar := _normalize_idsim (some e.idSimilar) norm_case strip_spaces }

/-- One iteration of `for idx in ed.index`: if the edited id exists in the
base frame, overwrite that row's mutable fields. -/
def applyEdit (base : List Record) (e : Record) (norm_case : Str)
    (strip_spaces : Bool) : List Record :=
  if base.any (fun r => r.id == e.id) then
    base.map (fun r => if r.id == e.id then updFields r e norm_case strip_spaces else r)
  else base

/-- The whole update loop over the edited view. -/
def mergeEdit (df edited : List Record) (norm_case : Str)
    (strip_spaces : Bool) : List Record :=
  edited.foldl (fun b e => applyEdit b e norm_case strip_spaces) df

/-- Row-wise description of the update loop: a base row is overwritten by
the edited row carrying its id, if any (used to characterise `mergeEdit`
when the edited view has no duplicate ids). -/
def editLookup (ed : List Record) (norm_case : Str) (strip_spaces : Bool)
    (r : Record) : Record :=
  match ed.find? (fun e => e.id == r.id) with
  | some e => updFields r e norm_case strip_spaces
  | none => r

/-- `can_delete = (not q and not ub_sel) or allow_delete_filtered`
(src/app.py line 321). -/
def can_delete (filterQ filterUb allow_delete_filtered : Bool) : Bool :=
  (!filterQ && !filterUb) || allow_delete_filtered

/-- The merge block: update loop, deletion of rows absent from the view
(only when `can_delete`), then re-normalization of the whole `ID Similar`
column. -/
def reconcile (df edited : List Record) (cd : Bool) (norm_case : Str)
    (strip_spaces : Bool) : List Record :=
  (if cd then
    (mergeEdit df edited norm_case strip_spaces).filter
      (fun r => edited.any (fun e => e.id == r.id))
  else mergeEdit df edited norm_case strip_spaces).map (fun r =>
    { r with idSimilar := _normalize_idsim (some r.idSimilar) norm_case strip_spaces })

/-- Result of the merge block after the global duplicate check: `none`
models the `st.error` branch in which `save_data` is not called. -/
def mergeOutcome (df edited : List Record) (cd : Bool) (norm_case : Str)
    (strip_spaces : Bool) : Option (List Record) :=
  if _has_dup_desc_ubic (reconcile df edited cd norm_case strip_spaces) then none
  else some (reconcile df edited cd norm_case strip_spaces)

/-- The persisted record set after the merge block, given the previously
persisted set `prev`: `save_data` runs only when the duplicate check
passes. -/
def persistedAfterMerge (prev df edited : List Record) (cd : Bool)
    (norm_case : Str) (strip_spaces : Bool) : List Record :=
  (mergeOutcome df edited cd norm_case strip_spaces).getD prev

/-! ### Aggregation (src/app.py lines 376-383, resumen) -/

/-- A CSV state whose header lacks required columns while a data row is
present: `df[col] = []` then raises in pandas. -/
def tMissingCol : RawTable := { cols := [colID], rows := [[("I-0001").data]] }

/-- A CSV state whose `Cantidad` cell holds a negative numeral. -/
def tNegQty : RawTable :=
  { cols := APP_COLUMNS,
    rows := [[("I-0001").data, [], [], ("d").data, [], ("-5").data, []]] }

/-- A CSV state whose `Cantidad` cells are all non-negative numerals. -/
def tPosQty : RawTable :=
  { cols := APP_COLUMNS,
    rows := [[("I-0001").data, ("A").data, ("img").data, ("d").data,
              ("pz").data, ("7").data, ("A1").data]] }

/-- The record loaded from `tPosQty`. -/
def recPosQty : Record :=
  { id := ("I-0001").data, idSimilar := ("A").data, imagen := ("img").data,
    descripcion := ("d").data, unidad := ("pz").data, cantidad := 7,
    ubicacion := ("A1").data }

/-- A record whose description is the numeric-looking text `"007"`: the
reader re-types it as the integer 7, so save-then-load changes it. -/
def rec007 : Record :=
  { id := ("I-0001").data, idSimilar := ("A").data, imagen := ("img").data,
    descripcion := ("007").data, unidad := ("pz").data, cantidad := 1,
    ubicacion := ("A1").data }

/-- A CSV state whose `Cantidad` cell is `"inf"`: `astype(int)` raises. -/
def tInfQty : RawTable :=
  { cols := APP_COLUMNS,
    rows := [[("I-0001").data, ("A").data, ("img").data, ("d").data,
              ("pz").data, ("inf").data, ("A1").data]] }

/-- A record all of whose text fields are inference-safe. -/
def recSafe : Record :=
  { id := ("I-0001").data, idSimilar := ("A").data, imagen := ("img").data,
    descripcion := ("desc").data, unidad := ("pz").data, cantidad := 7,
    ubicacion := ("A1").data }

/-- A full set with an un-normalized `ID Similar` on `I-0001` and a second
row `I-0002`, used against claim C2. -/
def c2Df : List Record :=
  [ { id := ("I-0001").data, idSimilar := (" a ").data, imagen := [],
      descripcion := ("d1").data, unidad := [], cantidad := 1, ubicacion := ("u1").data },
    { id := ("I-0002").data, idSimilar := [], imagen := [],
      descripcion := ("d2").data, unidad := [], cantidad := 2, ubicacion := ("u2").data } ]

/-- The id removed from the edited view in claim C2. -/
def targetId : Str := ("I-0002").data

/-- Two records sharing the same normalized (description, location) pair. -/
def dupDf : List Record :=
  [ { id := ("I-0001").data, idSimilar := [], imagen := [],
      descripcion := ("Caja ").data, unidad := [], cantidad := 1, ubicacion := ("A1").data },
    { id := ("I-0002").data, idSimilar := [], imagen := [],
      descripcion := ("caja").data, unidad := [], cantidad := 2, ubicacion := (" a1").data } ]

/-- A one-row set and a colliding candidate for the add-item claim. -/
def c4Df : List Record :=
  [ { id := ("I-0001").data, idSimilar := [], imagen := [],
      descripcion := ("Shampoo").data, unidad := [], cantidad := 1,
      ubicacion := ("Estante 3").data } ]

/-- A candidate whose normalized (description, location) collides with
`c4Df`'s only record. -/
def c4Cand : Candidate :=
  { imagen := [], descripcion := (" shampoo ").data, unidad := [], cantidad := 4,
    ubicacion := ("ESTANTE 3").data, idSimilar := [] }

/-! ### Generic facts about the string model -/

instance {ε α : Type} [DecidableEq ε] [DecidableEq α] : DecidableEq (Except ε α) := fun a b =>
  match a, b with
  | Except.ok x, Except.ok y =>
    if h : x = y then isTrue (by rw [h]) else isFalse (by intro he; cases he; exact h rfl)
  | Except.error x, Except.error y =>
    if h : x = y then isTrue (by rw [h]) else isFalse (by intro he; cases he; exact h rfl)
  | Except.ok _, Except.error _ => isFalse (by intro he; cases he)
  | Except.error _, Except.ok _ => isFalse (by intro he; cases he)

theorem casePairs_snd_not_fst :
    ∀ p ∈ casePairs, casePairs.find? (fun q => q.1 == p.2) = none := by decide

theorem casePairs_fst_not_snd :
    ∀ p ∈ casePairs, casePairs.find? (fun q => q.2 == p.1) = none := by decide

theorem casePairs_not_ws :
    ∀ p ∈ casePairs, isWs p.1 = false ∧ isWs p.2 = false := by decide

theorem upChar_upChar (c : Char) : upChar (upChar c) = upChar c := by
  cases h : casePairs.find? (fun p => p.1 == c) with
  | none =>
    have hc : upChar c = c := by unfold upChar; rw [h]
    rw [hc]; exact hc
  | some p =>
    have hc : upChar c = p.2 := by unfold upChar; rw [h]
    have hp : p ∈ casePairs := List.mem_of_find?_eq_some h
    rw [hc]; unfold upChar; rw [casePairs_snd_not_fst p hp]

theorem lowChar_lowChar (c : Char) : lowChar (lowChar c) = lowChar c := by
  cases h : casePairs.find? (fun p => p.2 == c) with
  | none =>
    have hc : lowChar c = c := by unfold lowChar; rw [h]
    rw [hc]; exact hc
  | some p =>
    have hc : lowChar c = p.1 := by unfold lowChar; rw [h]
    have hp : p ∈ casePairs := List.mem_of_find?_eq_some h
    rw [hc]; unfold lowChar; rw [casePairs_fst_not_snd p hp]

theorem isWs_upChar (c : Char) : isWs (upChar c) = isWs c := by
  unfold upChar
  cases h : casePairs.find? (fun p => p.1 == c) with
  | none => rfl
  | some p =>
    have hp : p ∈ casePairs := List.mem_of_find?_eq_some h
    have hpc : p.1 = c := by
      have := List.find?_some h
      simpa using this
    rw [← hpc, (casePairs_not_ws p hp).1, (casePairs_not_ws p hp).2]

theorem isWs_lowChar (c : Char) : isWs (lowChar c) = isWs c := by
  unfold lowChar
  cases h : casePairs.find? (fun p => p.2 == c) with
  | none => rfl
  | some p =>
    have hp : p ∈ casePairs := List.mem_of_find?_eq_some h
    have hpc : p.2 = c := by
      have := List.find?_some h
      simpa using this
    rw [← hpc, (casePairs_not_ws p hp).1, (casePairs_not_ws p hp).2]

theorem dropWhile_self_of_head {α : Type} {p : α → Bool} :
    ∀ l : List α, (∀ c, l.head? = some c → p c = false) → l.dropWhile p = l := by
  intro l h
  cases l with
  | nil => rfl
  | cons a t => simp [List.dropWhile_cons, h a rfl]

theorem head_false_of_dropWhile_self {α : Type} {p : α → Bool} {l : List α}
    (h : l.dropWhile p = l) : ∀ c, l.head? = some c → p c = false := by
  intro c hc
  cases l with
  | nil => simp at hc
  | cons a t =>
    have hac : a = c := by simpa using hc
    subst hac
    by_cases hp : p a
    · rw [List.dropWhile_cons, if_pos hp] at h
      have hlen := List.Sublist.length_le (List.dropWhile_sublist (p := p) (l := t))
      have := congrArg List.length h
      simp at this
      omega
    · simpa using hp

theorem dropWhile_idem {α : Type} {p : α → Bool} :
    ∀ l : List α, (l.dropWhile p).dropWhile p = l.dropWhile p := by
  intro l
  induction l with
  | nil => rfl
  | cons a t ih => by_cases h : p a <;> simp [List.dropWhile_cons, h, ih]

theorem dropWhile_decomp {α : Type} {p : α → Bool} :
    ∀ l : List α, ∃ t, l = t ++ l.dropWhile p := by
  intro l
  induction l with
  | nil => exact ⟨[], rfl⟩
  | cons a t ih =>
    by_cases h : p a
    · obtain ⟨u, hu⟩ := ih
      exact ⟨a :: u, by simp [List.dropWhile_cons, h]; exact hu⟩
    · exact ⟨[], by simp [List.dropWhile_cons, h]⟩

theorem trimL_idem (l : Str) : trimL (trimL l) = trimL l := dropWhile_idem l

theorem trimR_idem (l : Str) : trimR (trimR l) = trimR l := by
  unfold trimR
  rw [List.reverse_reverse, dropWhile_idem]

theorem trimL_of_trimR {l : Str} (h : trimL l = l) : trimL (trimR l) = trimR l := by
  obtain ⟨t, ht⟩ := dropWhile_decomp (p := isWs) l.reverse
  unfold trimR
  apply dropWhile_self_of_head
  intro c hc
  cases hzr : (l.reverse.dropWhile isWs).reverse with
  | nil => rw [hzr] at hc; simp at hc
  | cons c' zs =>
    rw [hzr] at hc
    have hcc : c' = c := by simpa using hc
    subst hcc
    have hl : l = c' :: (zs ++ t.reverse) := by
      have : l = (l.reverse.dropWhile isWs).reverse ++ t.reverse := by
        have := congrArg List.reverse ht
        simpa [List.reverse_append] using this
      rw [this, hzr]; simp
    exact head_false_of_dropWhile_self h c' (by rw [hl]; rfl)

theorem pyStrip_idem (l : Str) : pyStrip (pyStrip l) = pyStrip l := by
  unfold pyStrip
  rw [trimL_of_trimR (trimL_idem l), trimR_idem]

theorem pyStrip_eq_self {l : Str} (h : ∀ c ∈ l, isWs c = false) : pyStrip l = l := by
  have h1 : trimL l = l := by
    apply dropWhile_self_of_head
    intro c hc
    exact h c (List.mem_of_mem_head? (by rw [hc]; rfl))
  have h2 : trimR l = l := by
    unfold trimR
    rw [dropWhile_self_of_head l.reverse (fun c hc =>
      h c (List.mem_reverse.mp (List.mem_of_mem_head? (by rw [hc]; rfl))))]
    exact List.reverse_reverse l
  unfold pyStrip
  rw [h1, h2]

theorem dropWhile_map_pres {f : Char → Char} (hf : ∀ c, isWs (f c) = isWs c)
    (l : Str) : (l.map f).dropWhile isWs = (l.dropWhile isWs).map f := by
  induction l with
  | nil => rfl
  | cons a t ih =>
    by_cases h : isWs a <;>
      simp [List.dropWhile_cons, hf a, h, ih]

theorem trimL_map {f : Char → Char} (hf : ∀ c, isWs (f c) = isWs c) (l : Str) :
    trimL (l.map f) = (trimL l).map f := dropWhile_map_pres hf l

theorem trimR_map {f : Char → Char} (hf : ∀ c, isWs (f c) = isWs c) (l : Str) :
    trimR (l.map f) = (trimR l).map f := by
  unfold trimR
  rw [← List.map_reverse, dropWhile_map_pres hf, List.map_reverse]

theorem pyStrip_map {f : Char → Char} (hf : ∀ c, isWs (f c) = isWs c) (l : Str) :
    pyStrip (l.map f) = (pyStrip l).map f := by
  unfold pyStrip
  rw [trimL_map hf, trimR_map hf]

theorem pyUpper_pyUpper (s : Str) : pyUpper (pyUpper s) = pyUpper s := by
  unfold pyUpper
  rw [List.map_map]
  exact List.map_congr_left (fun a _ => upChar_upChar a)

theorem pyLower_pyLower (s : Str) : pyLower (pyLower s) = pyLower s := by
  unfold pyLower
  rw [List.map_map]
  exact List.map_congr_left (fun a _ => lowChar_lowChar a)

theorem pyStrip_pyUpper (s : Str) : pyStrip (pyUpper s) = pyUpper (pyStrip s) :=
  pyStrip_map isWs_upChar s

theorem pyStrip_pyLower (s : Str) : pyStrip (pyLower s) = pyLower (pyStrip s) :=
  pyStrip_map isWs_lowChar s

/-- Idempotence of the grouping-key normalization, for every case mode and
both trim settings. -/
theorem normalize_idsim_idem (v : Option Str) (nc : Str) (sp : Bool) :
    _normalize_idsim (some (_normalize_idsim v nc sp)) nc sp =
      _normalize_idsim v nc sp := by
  cases v with
  | none =>
    by_cases h1 : nc == mayusculas <;> by_cases h2 : nc == minusculas <;>
      cases sp <;>
        simp [_normalize_idsim, h1, h2, pyStrip, trimL, trimR, pyUpper, pyLower]
  | some s =>
    by_cases h1 : nc == mayusculas <;> by_cases h2 : nc == minusculas <;>
      cases sp <;>
        simp [_normalize_idsim, h1, h2, pyStrip_idem, pyUpper_pyUpper,
          pyLower_pyLower, pyStrip_pyUpper, pyStrip_pyLower]

/-! ### Decimal rendering and parsing round-trip -/

theorem natDigitsRev_eq_digits : ∀ fuel m, m ≤ fuel → natDigitsRev fuel m = Nat.digits 10 m := by
  intro fuel
  induction fuel with
  | zero =>
    intro m hm
    have h0 : m = 0 := by omega
    subst h0
    simp [natDigitsRev]
  | succ f ih =>
    intro m hm
    by_cases h0 : m = 0
    · subst h0; simp [natDigitsRev]
    · have hdiv : m / 10 ≤ f := by
        have := Nat.div_lt_self (by omega : 0 < m) (by norm_num : 1 < 10)
        omega
      rw [natDigitsRev, if_neg h0, ih (m / 10) hdiv]
      rw [Nat.digits_def' (by norm_num : (1 : Nat) < 10) (Nat.pos_of_ne_zero h0)]

theorem digitChar_isDigit {d : Nat} (h : d < 10) : (Nat.digitChar d).isDigit = true := by
  interval_cases d <;> decide

theorem digitChar_val {d : Nat} (h : d < 10) : (Nat.digitChar d).toNat - 48 = d := by
  interval_cases d <;> decide

theorem isWs_false_of_isDigit {c : Char} (h : c.isDigit = true) : isWs c = false := by
  by_contra hw
  have hw' : isWs c = true := by revert hw; cases isWs c <;> simp
  unfold isWs at hw'
  simp only [Bool.or_eq_true, beq_iff_eq] at hw'
  rcases hw' with ((((h1 | h1) | h1) | h1) | h1) | h1 <;>
    · subst h1; exact absurd h (by decide)

theorem ne_sign_of_isDigit {c : Char} (h : c.isDigit = true) : c ≠ '-' ∧ c ≠ '+' := by
  constructor <;> intro h' <;> subst h' <;> exact absurd h (by decide)

theorem digitsVal_digits (L : List Nat) (hL : ∀ d ∈ L, d < 10) :
    digitsVal ((L.map Nat.digitChar).reverse) = Nat.ofDigits 10 L := by
  induction L with
  | nil => rfl
  | cons d L ih =>
    rw [List.map_cons, List.reverse_cons]
    unfold digitsVal
    rw [List.foldl_append]
    simp only [List.foldl_cons, List.foldl_nil]
    have ihL := ih (fun x hx => hL x (by simp [hx]))
    unfold digitsVal at ihL
    rw [ihL, digitChar_val (hL d (by simp)), Nat.ofDigits_cons]
    ring

theorem natToChars_digits (m : Nat) : ∀ c ∈ natToChars m, c.isDigit = true := by
  intro c hc
  unfold natToChars at hc
  by_cases h0 : m = 0
  · rw [if_pos h0] at hc
    simp at hc
    subst hc
    decide
  · rw [if_neg h0, natDigitsRev_eq_digits m m le_rfl, List.mem_reverse] at hc
    obtain ⟨d, hd, rfl⟩ := List.mem_map.mp hc
    exact digitChar_isDigit (Nat.digits_lt_base (by norm_num) hd)

theorem natToChars_ne_nil (m : Nat) : natToChars m ≠ [] := by
  unfold natToChars
  by_cases h0 : m = 0
  · simp [h0]
  · rw [if_neg h0, natDigitsRev_eq_digits m m le_rfl]
    simp [Nat.digits_ne_nil_iff_ne_zero, h0]

theorem digitsVal_natToChars (m : Nat) : digitsVal (natToChars m) = m := by
  unfold natToChars
  by_cases h0 : m = 0
  · rw [if_pos h0, h0]; decide
  · rw [if_neg h0, natDigitsRev_eq_digits m m le_rfl,
      digitsVal_digits _ (fun d hd => Nat.digits_lt_base (by norm_num) hd),
      Nat.ofDigits_digits]

theorem takeWhile_all {α : Type} {p : α → Bool} :
    ∀ l : List α, (∀ c ∈ l, p c = true) → l.takeWhile p = l := by
  intro l h
  induction l with
  | nil => rfl
  | cons a t ih =>
    rw [List.takeWhile_cons, if_pos (h a (by simp))]
    rw [ih (fun c hc => h c (by simp [hc]))]

theorem casePairs_snd_not_digit : ∀ p ∈ casePairs, Char.isDigit p.2 = false := by decide

theorem lowChar_digit {c : Char} (h : c.isDigit = true) : lowChar c = c := by
  cases hf : casePairs.find? (fun p => p.2 == c) with
  | none => unfold lowChar; rw [hf]
  | some p =>
    have hp : p ∈ casePairs := List.mem_of_find?_eq_some hf
    have hpc : p.2 = c := by
      have := List.find?_some hf
      simpa using this
    rw [← hpc] at h
    rw [casePairs_snd_not_digit p hp] at h
    exact absurd h (by simp)

theorem isInfBody_digit_head {c : Char} {t : Str} (hc : c.isDigit = true) :
    isInfBody (c :: t) = false := by
  have hci : c ≠ 'i' := by
    intro h
    subst h
    exact absurd hc (by decide)
  have hmap : pyLower (c :: t) = lowChar c :: pyLower t := rfl
  have h1 : (pyLower (c :: t) == ("inf").data) = false := by
    rw [beq_eq_false_iff_ne]
    intro heq
    have hinf : ("inf").data = 'i' :: ('n' :: ('f' :: [])) := rfl
    rw [hmap, hinf] at heq
    injection heq with hh _
    rw [lowChar_digit hc] at hh
    exact hci hh
  have h2 : (pyLower (c :: t) == ("infinity").data) = false := by
    rw [beq_eq_false_iff_ne]
    intro heq
    have hinf : ("infinity").data =
        'i' :: ('n' :: ('f' :: ('i' :: ('n' :: ('i' :: ('t' :: ('y' :: []))))))) := rfl
    rw [hmap, hinf] at heq
    injection heq with hh _
    rw [lowChar_digit hc] at hh
    exact hci hh
  unfold isInfBody
  rw [h1, h2]
  rfl

theorem cellNumBody_digits {b : Str} (hb : b ≠ []) (hd : ∀ c ∈ b, c.isDigit = true)
    (neg : Bool) (hov : digitsVal b < 2 ^ 1024 - 2 ^ 970) :
    cellNumBody neg b = CellNum.num (intSign neg (digitsVal b)) := by
  obtain ⟨c, t, rfl⟩ : ∃ c t, b = c :: t := by
    cases b with
    | nil => exact absurd rfl hb
    | cons c t => exact ⟨c, t, rfl⟩
  have hIP : mantIP (c :: t) = c :: t := takeWhile_all _ hd
  have hAfterIP : afterIP (c :: t) = [] := by
    unfold afterIP
    rw [hIP, List.drop_length]
  have hFP : mantFP (c :: t) = [] := by
    unfold mantFP
    rw [hAfterIP]
  have hAM : afterMant (c :: t) = [] := by
    unfold afterMant
    rw [hAfterIP]
  have hEP : expPart (c :: t) = some (false, []) := by
    unfold expPart
    rw [hAM]
  have hMok : mantOk (c :: t) = true := by
    unfold mantOk
    rw [hIP]
    simp
  have hInf : isInfBody (c :: t) = false := isInfBody_digit_head (hd c (by simp))
  have h0 : digitsVal ([] : Str) = 0 := rfl
  have hso : sciOverflow (digitsVal (c :: t)) 0 false 0 = false := by
    unfold sciOverflow
    rw [if_neg (by simp), if_pos (le_refl 0)]
    exact decide_eq_false (by
      rw [Nat.sub_self, pow_zero, mul_one]
      exact Nat.not_le.mpr hov)
  have hts : truncSci (digitsVal (c :: t)) 0 false 0 = digitsVal (c :: t) := by
    unfold truncSci
    rw [if_neg (by simp), if_pos (le_refl 0), Nat.sub_self, pow_zero, mul_one]
  unfold cellNumBody
  rw [if_neg (by simp [hInf]), hEP]
  simp only [hMok, if_true, hIP, hFP, List.append_nil, List.length_nil]
  rw [h0, hso, hts]
  simp

theorem pow63_lt_bound : (2 : Nat) ^ 63 < 2 ^ 1024 - 2 ^ 970 := by
  have h1 : (2 : Nat) ^ 63 < 2 ^ 970 :=
    Nat.pow_lt_pow_right (by norm_num) (by norm_num)
  have h2 : (2 : Nat) ^ 970 * 2 ≤ 2 ^ 1024 := by
    rw [← pow_succ]
    exact Nat.pow_le_pow_right (by norm_num) (by norm_num)
  omega

theorem pow53_lt_bound : (2 : Nat) ^ 53 < 2 ^ 1024 - 2 ^ 970 := by
  have h1 : (2 : Nat) ^ 53 ≤ 2 ^ 63 :=
    Nat.pow_le_pow_right (by norm_num) (by norm_num)
  have h2 := pow63_lt_bound
  omega

/-- Classifying the decimal rendering of an integer of magnitude at most
`2^53` recovers the integer: the `Cantidad` round-trip is lossless inside
the exactly-representable range. -/
theorem cellNum_intToStr {n : Int} (h : n.natAbs ≤ 2 ^ 53) :
    cellNum (intToStr n) = CellNum.num n := by
  by_cases hn : n < 0
  case pos =>
    set D := natToChars n.natAbs with hD
    have hdig : ∀ c ∈ D, Char.isDigit c = true := natToChars_digits _
    have hws : ∀ c ∈ ('-' :: D), isWs c = false := by
      intro c hc
      rcases List.mem_cons.mp hc with h | h
      · subst h; decide
      · exact isWs_false_of_isDigit (hdig c h)
    have hstrip : pyStrip ('-' :: D) = '-' :: D := pyStrip_eq_self hws
    have hsplit : splitSign ('-' :: D) = (true, D) := by simp [splitSign]
    have hDne : D ≠ [] := natToChars_ne_nil _
    have hval : digitsVal D = n.natAbs := by rw [hD, digitsVal_natToChars]
    have hov : digitsVal D < 2 ^ 1024 - 2 ^ 970 := by
      rw [hval]
      have := pow53_lt_bound
      omega
    show cellNumBody (splitSign (pyStrip (intToStr n))).1
      (splitSign (pyStrip (intToStr n))).2 = CellNum.num n
    rw [show intToStr n = '-' :: D from by rw [intToStr, if_pos hn]]
    rw [hstrip, hsplit]
    rw [cellNumBody_digits hDne hdig true hov]
    have : intSign true (digitsVal D) = n := by
      rw [hval]
      show -(((n.natAbs : Nat) : Int)) = n
      omega
    rw [this]
  case neg =>
    set D := natToChars n.toNat with hD
    have hdig : ∀ c ∈ D, Char.isDigit c = true := natToChars_digits _
    have hws : ∀ c ∈ D, isWs c = false := fun c hc => isWs_false_of_isDigit (hdig c hc)
    have hstrip : pyStrip D = D := pyStrip_eq_self hws
    obtain ⟨a, t, hat⟩ : ∃ a t, D = a :: t := by
      cases hD2 : D with
      | nil => exact absurd hD2 (natToChars_ne_nil _)
      | cons a t => exact ⟨a, t, rfl⟩
    have ha : Char.isDigit a = true := hdig a (by rw [hat]; simp)
    obtain ⟨ha1, ha2⟩ := ne_sign_of_isDigit ha
    have hsplit : splitSign D = (false, D) := by
      rw [hat]
      simp [splitSign, ha1, ha2]
    have hDne : D ≠ [] := natToChars_ne_nil _
    have hval : digitsVal D = n.toNat := by rw [hD, digitsVal_natToChars]
    have hov : digitsVal D < 2 ^ 1024 - 2 ^ 970 := by
      rw [hval]
      have := pow53_lt_bound
      omega
    show cellNumBody (splitSign (pyStrip (intToStr n))).1
      (splitSign (pyStrip (intToStr n))).2 = CellNum.num n
    rw [show intToStr n = D from by rw [intToStr, if_neg hn]]
    rw [hstrip, hsplit]
    rw [cellNumBody_digits hDne hdig false hov]
    have : intSign false (digitsVal D) = n := by
      rw [hval]
      show ((n.toNat : Nat) : Int) = n
      omega
    rw [this]

theorem splitSign_cases (cs : Str) :
    cs = (splitSign cs).2 ∨ cs = '-' :: (splitSign cs).2 ∨
      cs = '+' :: (splitSign cs).2 := by
  cases cs with
  | nil => left; rfl
  | cons c r =>
    by_cases h1 : c = '-'
    · right; left
      rw [h1]
      simp [splitSign]
    · by_cases h2 : c = '+'
      · right; right
        rw [h2]
        simp [splitSign]
      · left
        simp [splitSign, h1, h2]

/-- An integer-literal cell classifies numerically with the same value, so
the reader's int inference and the quantity coercion agree on it. -/
theorem intLitVal_cellNum {cs : Str} {v : Int} (h : intLitVal cs = some v) :
    cellNum cs = CellNum.num v := by
  unfold intLitVal at h
  by_cases h1 : (splitSign cs).2 ≠ [] ∧ (splitSign cs).2.all Char.isDigit
  case neg =>
    rw [if_neg h1] at h
    exact absurd h (by simp)
  case pos =>
    rw [if_pos h1] at h
    by_cases h2 : -(2 ^ 63) ≤ intSign (splitSign cs).1 (digitsVal (splitSign cs).2) ∧
        intSign (splitSign cs).1 (digitsVal (splitSign cs).2) < 2 ^ 63
    case neg =>
      rw [if_neg h2] at h
      exact absurd h (by simp)
    case pos =>
      rw [if_pos h2] at h
      injection h with hv
      obtain ⟨hne, hall⟩ := h1
      have hdig : ∀ c ∈ (splitSign cs).2, c.isDigit = true := List.all_eq_true.mp hall
      have hDb : digitsVal (splitSign cs).2 ≤ 2 ^ 63 := by
        rcases h2 with ⟨hlo, hhi⟩
        unfold intSign at hlo hhi
        by_cases hsg : (splitSign cs).1 = true <;> simp [hsg] at hlo hhi <;> omega
      have hov : digitsVal (splitSign cs).2 < 2 ^ 1024 - 2 ^ 970 := by
        have := pow63_lt_bound
        omega
      have hws : ∀ c ∈ cs, isWs c = false := by
        rcases splitSign_cases cs with hc | hc | hc <;> rw [hc] <;> intro c hcm
        · exact isWs_false_of_isDigit (hdig c hcm)
        · rcases List.mem_cons.mp hcm with rfl | hm
          · decide
          · exact isWs_false_of_isDigit (hdig c hm)
        · rcases List.mem_cons.mp hcm with rfl | hm
          · decide
          · exact isWs_false_of_isDigit (hdig c hm)
      have hstrip : pyStrip cs = cs := pyStrip_eq_self hws
      unfold cellNum
      rw [hstrip]
      rw [cellNumBody_digits hne hdig _ hov, hv]

theorem cellNum_nan_of_textSafe {cs : Str} (h : textSafe cs = true) :
    cellNum cs = CellNum.nan := by
  unfold textSafe at h
  cases hc : cellNum cs with
  | num n => rw [hc] at h; simp at h
  | nan => rfl
  | inf => rw [hc] at h; simp at h

theorem readBackText_of_textSafe {cs : Str} (h : textSafe cs = true) :
    readBackText cs = cs := by
  unfold readBackText
  cases hi : intLitVal cs with
  | none => rfl
  | some v =>
    have hnum := intLitVal_cellNum hi
    rw [cellNum_nan_of_textSafe h] at hnum
    simp at hnum

/-! ### Storage adapter lemmas -/

theorem rowToRecord_render (r : Record)
    (ht : ∀ cs ∈ textFields r, textSafe cs = true)
    (hq : r.cantidad.natAbs ≤ 2 ^ 53) :
    rowToRecord APP_COLUMNS (renderRecord r) = r := by
  have hbase : rowToRecord APP_COLUMNS (renderRecord r) =
      { id := readBackText r.id, idSimilar := readBackText r.idSimilar,
        imagen := readBackText r.imagen, descripcion := readBackText r.descripcion,
        unidad := readBackText r.unidad, cantidad := qtyVal (intToStr r.cantidad),
        ubicacion := readBackText r.ubicacion } := rfl
  have hqv : qtyVal (intToStr r.cantidad) = r.cantidad := by
    unfold qtyVal
    rw [cellNum_intToStr hq]
  rw [hbase, hqv,
    readBackText_of_textSafe (ht r.id (by simp [textFields])),
    readBackText_of_textSafe (ht r.idSimilar (by simp [textFields])),
    readBackText_of_textSafe (ht r.imagen (by simp [textFields])),
    readBackText_of_textSafe (ht r.descripcion (by simp [textFields])),
    readBackText_of_textSafe (ht r.unidad (by simp [textFields])),
    readBackText_of_textSafe (ht r.ubicacion (by simp [textFields]))]

theorem coerceTable_mk (rows : List (List Str)) :
    coerceTable { cols := APP_COLUMNS, rows := rows } =
      if rows.isEmpty then Except.ok []
      else if rows.any (fun row => isInfCell (getCell APP_COLUMNS row colCant)) then
        Except.error ()
      else Except.ok (rows.map (rowToRecord APP_COLUMNS)) := by
  cases rows with
  | nil => rfl
  | cons b rs => rfl

theorem coerceTable_render (recs : List Record)
    (ht : ∀ r ∈ recs, ∀ cs ∈ textFields r, textSafe cs = true)
    (hq : ∀ r ∈ recs, r.cantidad.natAbs ≤ 2 ^ 53) :
    coerceTable { cols := APP_COLUMNS, rows := recs.map renderRecord } =
      Except.ok recs := by
  rw [coerceTable_mk]
  cases recs with
  | nil => rfl
  | cons a t =>
    have hninf : ((a :: t).map renderRecord).any
        (fun row => isInfCell (getCell APP_COLUMNS row colCant)) = false := by
      rw [List.any_eq_false]
      intro row hrow
      obtain ⟨r, hr, rfl⟩ := List.mem_map.mp hrow
      have hcell : getCell APP_COLUMNS (renderRecord r) colCant =
          intToStr r.cantidad := rfl
      rw [hcell]
      unfold isInfCell
      rw [cellNum_intToStr (hq r hr)]
      simp
    rw [if_neg (by simp), if_neg (by rw [hninf]; simp)]
    rw [List.map_map]
    congr 1
    calc (a :: t).map (fun row => rowToRecord APP_COLUMNS (renderRecord row))
        = (a :: t).map id :=
          List.map_congr_left (fun r hr => rowToRecord_render r (ht r hr) (hq r hr))
      _ = a :: t := List.map_id _

theorem qtyVal_nonneg {cs : Str} (h : qtyOkCell cs = true) : 0 ≤ qtyVal cs := by
  unfold qtyOkCell at h
  unfold qtyVal
  cases hc : cellNum cs with
  | num n =>
    rw [hc] at h
    simp only [Bool.and_eq_true, decide_eq_true_eq] at h
    show 0 ≤ n
    exact h.1.2
  | nan => show (0 : Int) ≤ 0; omega
  | inf => simp [hc] at h

/-! ### Duplicate detection lemmas -/

theorem hasDupB_iff {α : Type} [DecidableEq α] (l : List α) :
    hasDupB l = true ↔ ¬ l.Nodup := by
  induction l with
  | nil => simp [hasDupB]
  | cons x xs ih =>
    simp only [hasDupB, Bool.or_eq_true, decide_eq_true_eq, ih, List.nodup_cons]
    tauto

theorem has_dup_iff (df : List Record) :
    _has_dup_desc_ubic df = true ↔ ¬ (pairKeys df).Nodup := by
  unfold _has_dup_desc_ubic
  cases df with
  | nil => simp [pairKeys]
  | cons a t =>
    rw [if_neg (by simp)]
    exact hasDupB_iff _

/-! ### Merge-block lemmas -/

theorem updFields_id (r e : Record) (nc : Str) (sp : Bool) :
    (updFields r e nc sp).id = r.id := rfl

theorem applyEdit_eq_map (base : List Record) (e : Record) (nc : Str) (sp : Bool) :
    applyEdit base e nc sp =
      base.map (fun r => if r.id == e.id then updFields r e nc sp else r) := by
  unfold applyEdit
  by_cases h : base.any (fun r => r.id == e.id)
  · rw [if_pos h]
  · rw [if_neg h]
    simp only [List.any_eq_true, not_exists, not_and, Bool.not_eq_true] at h
    have hpt : ∀ r ∈ base, (if r.id == e.id then updFields r e nc sp else r) = r := by
      intro r hr
      rw [if_neg (by rw [h r hr]; simp)]
    conv_lhs => rw [← List.map_id base]
    exact List.map_congr_left (fun r hr => (hpt r hr).symm)

theorem mergeEdit_ids (df ed : List Record) (nc : Str) (sp : Bool) :
    (mergeEdit df ed nc sp).map (fun r => r.id) = df.map (fun r => r.id) := by
  induction ed generalizing df with
  | nil => rfl
  | cons e ed ih =>
    rw [show mergeEdit df (e :: ed) nc sp = mergeEdit (applyEdit df e nc sp) ed nc sp
      from rfl]
    rw [ih, applyEdit_eq_map, List.map_map]
    apply List.map_congr_left
    intro r _
    by_cases h : r.id = e.id <;> simp [h, updFields_id]

theorem find?_id_self {l : List Record} (hnd : (l.map (fun r => r.id)).Nodup)
    {r : Record} (hr : r ∈ l) : l.find? (fun e => e.id == r.id) = some r := by
  induction l with
  | nil => simp at hr
  | cons a t ih =>
    rw [List.map_cons, List.nodup_cons] at hnd
    by_cases hpa : (a.id == r.id) = true
    · have haid : a.id = r.id := by simpa using hpa
      rcases List.mem_cons.mp hr with h | h
      · rw [List.find?_cons_of_pos (p := fun e : Record => e.id == r.id) _ hpa, h]
      · exact absurd (haid ▸ List.mem_map_of_mem (fun x => x.id) h) hnd.1
    · have hrt : r ∈ t := by
        rcases List.mem_cons.mp hr with h | h
        · exact absurd (by rw [h]; simp) hpa
        · exact h
      rw [List.find?_cons_of_neg (p := fun e : Record => e.id == r.id) _ hpa]
      exact ih hnd.2 hrt

theorem mergeEdit_eq_map {ed : List Record}
    (hnd : (ed.map (fun r => r.id)).Nodup) (df : List Record) (nc : Str) (sp : Bool) :
    mergeEdit df ed nc sp = df.map (editLookup ed nc sp) := by
  induction ed generalizing df with
  | nil =>
    show df = df.map (editLookup [] nc sp)
    have h : ∀ r ∈ df, editLookup [] nc sp r = r := by
      intro r _
      unfold editLookup
      rfl
    conv_lhs => rw [← List.map_id df]
    exact List.map_congr_left (fun r hr => (h r hr).symm)
  | cons e ed ih =>
    rw [List.map_cons, List.nodup_cons] at hnd
    obtain ⟨hnotin, hnd'⟩ := hnd
    rw [show mergeEdit df (e :: ed) nc sp = mergeEdit (applyEdit df e nc sp) ed nc sp
      from rfl]
    rw [ih hnd', applyEdit_eq_map, List.map_map]
    apply List.map_congr_left
    intro r _
    show editLookup ed nc sp (if r.id == e.id then updFields r e nc sp else r) =
      editLookup (e :: ed) nc sp r
    by_cases h : (r.id == e.id) = true
    · have hre : r.id = e.id := by simpa using h
      rw [if_pos h]
      have hfe : ed.find? (fun x => x.id == (updFields r e nc sp).id) = none := by
        rw [List.find?_eq_none]
        intro x hx
        simp only [updFields_id, hre, beq_iff_eq]
        intro hxe
        exact hnotin (hxe ▸ List.mem_map_of_mem (fun y => y.id) hx)
      have hhead : (e.id == r.id) = true := by simp [hre]
      unfold editLookup
      rw [hfe, List.find?_cons_of_pos (p := fun x : Record => x.id == r.id) _ hhead]
    · rw [if_neg h]
      have hhead : ¬ (e.id == r.id) = true := by
        simp only [beq_iff_eq]
        intro hre
        exact h (by simp [hre])
      unfold editLookup
      rw [List.find?_cons_of_neg (p := fun x : Record => x.id == r.id) _ hhead]

theorem filter_ids_nodup {df : List Record}
    (hnd : (df.map (fun r => r.id)).Nodup) (P : Record → Bool) :
    ((df.filter P).map (fun r => r.id)).Nodup :=
  List.Sublist.nodup (List.Sublist.map (fun r => r.id) (List.filter_sublist df)) hnd

theorem reconcile_ids_no_delete (df ed : List Record) (nc : Str) (sp : Bool) :
    (reconcile df ed false nc sp).map (fun r => r.id) = df.map (fun r => r.id) := by
  unfold reconcile
  rw [if_neg (by simp)]
  rw [List.map_map]
  have h : ((fun r : Record => r.id) ∘
      (fun r : Record =>
        { r with idSimilar := _normalize_idsim (some r.idSimilar) nc sp })) =
      fun r : Record => r.id := funext fun r => rfl
  rw [h, mergeEdit_ids]

theorem updFields_self (r : Record) (nc : Str) (sp : Bool) :
    updFields r r nc sp =
      { r with idSimilar := _normalize_idsim (some r.idSimilar) nc sp } := rfl

/-- When the edited view is exactly a by-id filter of the full set (and
ids are unique), the merge block keeps precisely the filtered rows, each
with its `ID Similar` re-normalized and every other field untouched. -/
theorem reconcile_filter_eq (df : List Record) (P : Record → Bool)
    (hP : ∀ r s : Record, r.id = s.id → P r = P s)
    (hnd : (df.map (fun r => r.id)).Nodup) (nc : Str) (sp : Bool) :
    reconcile df (df.filter P) true nc sp =
      (df.filter P).map (fun r =>
        { r with idSimilar := _normalize_idsim (some r.idSimilar) nc sp }) := by
  have hndF : ((df.filter P).map (fun r => r.id)).Nodup := filter_ids_nodup hnd P
  have hlook : ∀ r ∈ df,
      editLookup (df.filter P) nc sp r =
        if P r then updFields r r nc sp else r := by
    intro r hr
    by_cases hPr : P r = true
    · have hrF : r ∈ df.filter P := List.mem_filter.mpr ⟨hr, hPr⟩
      unfold editLookup
      rw [find?_id_self hndF hrF, if_pos hPr]
    · have hfn : (df.filter P).find? (fun e => e.id == r.id) = none := by
        rw [List.find?_eq_none]
        intro x hx
        simp only [beq_iff_eq]
        intro hxe
        have hPx := (List.mem_filter.mp hx).2
        rw [hP x r hxe] at hPx
        exact hPr hPx
      unfold editLookup
      rw [hfn, if_neg hPr]
  have hany : ∀ r ∈ df,
      ((df.filter P).any (fun e =>
        e.id == (if P r then updFields r r nc sp else r).id)) = P r := by
    intro r hr
    have hid : (if P r then updFields r r nc sp else r).id = r.id := by
      by_cases hPr : P r = true <;> simp [hPr, updFields_id]
    rw [hid]
    by_cases hPr : P r = true
    · rw [hPr, List.any_eq_true]
      exact ⟨r, List.mem_filter.mpr ⟨hr, hPr⟩, by simp⟩
    · have hPf : P r = false := by revert hPr; cases P r <;> simp
      rw [hPf, List.any_eq_false]
      intro x hx
      simp only [beq_iff_eq]
      intro hxe
      have hPx := (List.mem_filter.mp hx).2
      rw [hP x r hxe] at hPx
      exact hPr hPx
  unfold reconcile
  rw [if_pos rfl]
  rw [mergeEdit_eq_map hndF, List.map_congr_left hlook]
  rw [List.filter_map]
  have hcomp : ((fun r : Record => (List.filter P df).any fun e => e.id == r.id) ∘
      fun a : Record => if P a = true then updFields a a nc sp else a) =
      (fun a : Record => (List.filter P df).any fun e =>
        e.id == (if P a = true then updFields a a nc sp else a).id) := rfl
  rw [hcomp]
  rw [List.filter_congr (fun r hr => hany r hr)]
  rw [List.map_map]
  apply List.map_congr_left
  intro r hr
  have hPr : P r = true := (List.mem_filter.mp hr).2
  show (fun s : Record =>
      { s with idSimilar := _normalize_idsim (some s.idSimilar) nc sp })
        (if P r then updFields r r nc sp else r) =
    { r with idSimilar := _normalize_idsim (some r.idSimilar) nc sp }
  rw [if_pos hPr, updFields_self]
  show { r with idSimilar :=
      _normalize_idsim (some (_normalize_idsim (some r.idSimilar) nc sp)) nc sp } =
    { r with idSimilar := _normalize_idsim (some r.idSimilar) nc sp }
  rw [normalize_idsim_idem]

/-! ### Lexicographic sort lemmas -/

theorem coerceTable_quantity {t : RawTable} {recs : List Record}
    (h : coerceTable t = Except.ok recs)
    (hpos : ∀ row ∈ t.rows, qtyOkCell (getCell t.cols row colCant) = true) :
    ∀ r ∈ recs, 0 ≤ r.cantidad := by
  unfold coerceTable at h
  by_cases h1 : t.rows.isEmpty
  · rw [if_pos h1] at h
    injection h with h2
    subst h2
    intro r hr
    simp at hr
  · rw [if_neg h1] at h
    by_cases h2 : APP_COLUMNS.all (fun c => t.cols.contains c)
    · rw [if_pos h2] at h
      by_cases h3 : t.rows.any (fun row => isInfCell (getCell t.cols row colCant))
      · rw [if_pos h3] at h
        exact Except.noConfusion h
      · rw [if_neg h3] at h
        injection h with h4
        subst h4
        intro r hr
        obtain ⟨row, hrow, rfl⟩ := List.mem_map.mp hr
        exact qtyVal_nonneg (hpos row hrow)
    · rw [if_neg h2] at h
      exact Except.noConfusion h

/-!
## The claims

Each claim of the specification is settled by exactly one theorem below.
-/

/-- C10: the grouping-key normalization `_normalize_idsim` is idempotent
for every input, every case mode (the two recognised mode names and any
other, i.e. unchanged) and both trim settings, and `None` input always
normalizes to the empty string. -/
theorem C10_normalize_idempotent (v : Option Str) (nc : Str) (sp : Bool) :
    _normalize_idsim (some (_normalize_idsim v nc sp)) nc sp =
      _normalize_idsim v nc sp ∧
    _normalize_idsim none nc sp = [] :=
  ⟨normalize_idsim_idem v nc sp, rfl⟩

set_option maxRecDepth 8192 in
/-- C9 counterexample: save-then-load is not the identity, because the
reader re-types numeric-looking text cells: a record whose description is
the text `"007"` does not load back as itself (its description is
re-typed as the number 7) on either backend. -/
theorem C9_counterexample :
    _load_local (_save_local [rec007]) ≠ Except.ok [rec007] ∧
    _read_from_gsheets (_write_to_gsheets [rec007]) ≠ [rec007] :=
  ⟨by decide, by decide⟩

/-- C9 (amended): saving a record set and loading it back returns the same
rows in the same order with the same field values, on both backends,
provided every text field is inference-safe (non-empty and not re-typed by
the reader as a number, NA marker or boolean) and every quantity has
magnitude at most `2^53`; outside that domain the reader re-types cells
(e.g. the text `"007"` loads as the number 7, an empty string as NaN). -/
theorem C9_roundtrip_amended (recs : List Record)
    (h : ∀ r ∈ recs, (∀ cs ∈ textFields r, textSafe cs = true) ∧
      r.cantidad.natAbs ≤ 2 ^ 53) :
    _load_local (_save_local recs) = Except.ok recs ∧
    _read_from_gsheets (_write_to_gsheets recs) = recs := by
  have ht : ∀ r ∈ recs, ∀ cs ∈ textFields r, textSafe cs = true :=
    fun r hr => (h r hr).1
  have hq : ∀ r ∈ recs, r.cantidad.natAbs ≤ 2 ^ 53 := fun r hr => (h r hr).2
  constructor
  · show coerceTable { cols := APP_COLUMNS, rows := recs.map renderRecord } =
      Except.ok recs
    exact coerceTable_render recs ht hq
  · show (match coerceTable { cols := APP_COLUMNS, rows := recs.map renderRecord } with
      | Except.ok r => r
      | Except.error _ => ([] : List Record)) = recs
    rw [coerceTable_render recs ht hq]

set_option maxRecDepth 8192 in
theorem C9_witness :
    ((∀ cs ∈ textFields recSafe, textSafe cs = true) ∧
      recSafe.cantidad.natAbs ≤ 2 ^ 53) ∧
    _load_local (_save_local [recSafe]) = Except.ok [recSafe] :=
  ⟨by decide,
    (C9_roundtrip_amended [recSafe]
      (by intro r hr; simp at hr; rw [hr]; exact ⟨by decide, by decide⟩)).1⟩

/-- C1: when `can_delete` is false (some display filter is active and the
allow-delete-while-filtered option is off), the merge block removes no
record: the resulting set carries exactly the original ids, so every id of
the original full set is still present. -/
theorem C1_no_delete_no_removal (fq fu allow : Bool)
    (h : can_delete fq fu allow = false) (df edited : List Record)
    (nc : Str) (sp : Bool) :
    ((reconcile df edited (can_delete fq fu allow) nc sp).map (fun r => r.id) =
      df.map (fun r => r.id)) ∧
    ∀ i ∈ df.map (fun r => r.id),
      i ∈ (reconcile df edited (can_delete fq fu allow) nc sp).map (fun r => r.id) := by
  rw [h]
  constructor
  · exact reconcile_ids_no_delete df edited nc sp
  · intro i hi
    rw [reconcile_ids_no_delete]
    exact hi

theorem C1_witness :
    can_delete true false false = false ∧
    ((reconcile c2Df [] (can_delete true false false) [] true).map (fun r => r.id) =
      c2Df.map (fun r => r.id)) :=
  ⟨rfl, (C1_no_delete_no_removal true false false rfl c2Df [] [] true).1⟩

/-- C3: whenever the merged result of the editor block has two rows with
the same normalized (description, location) pair, the duplicate check
fires, `save_data` is not called, and the persisted full set stays exactly
its pre-merge state. -/
theorem C3_duplicate_aborts (prev df edited : List Record) (cd : Bool)
    (nc : Str) (sp : Bool)
    (h : ¬ (pairKeys (reconcile df edited cd nc sp)).Nodup) :
    persistedAfterMerge prev df edited cd nc sp = prev ∧
    mergeOutcome df edited cd nc sp = none := by
  have hd : _has_dup_desc_ubic (reconcile df edited cd nc sp) = true :=
    (has_dup_iff _).mpr h
  have ho : mergeOutcome df edited cd nc sp = none := by
    unfold mergeOutcome
    rw [if_pos hd]
  refine ⟨?_, ho⟩
  unfold persistedAfterMerge
  rw [ho]
  rfl

theorem C3_witness :
    (¬ (pairKeys (reconcile dupDf [] false [] true)).Nodup) ∧
    persistedAfterMerge dupDf dupDf [] false [] true = dupDf :=
  ⟨by decide, (C3_duplicate_aborts dupDf dupDf [] false [] true (by decide)).1⟩

/-- C4: adding a candidate whose normalized (description, location) pair
matches an existing record fails with the duplicate error: nothing is
appended, the in-memory set is unchanged and `save_data` is not called. -/
theorem C4_duplicate_add_rejected (df : List Record) (c : Candidate)
    (nc : Str) (sp : Bool)
    (h : ∃ r ∈ df,
      _norm_text (some r.descripcion) = _norm_text (some c.descripcion) ∧
      _norm_text (some r.ubicacion) = _norm_text (some c.ubicacion)) :
    addItem df c nc sp = none ∧ altaResult df c nc sp = df ∧
    altaSaved df c nc sp = false := by
  obtain ⟨r, hr, hdesc, hubic⟩ := h
  have hkey : pairKey (probeRow c) = pairKey r := by
    unfold pairKey probeRow
    rw [hdesc, hubic]
  have hdup : _has_dup_desc_ubic (df ++ [probeRow c]) = true := by
    rw [has_dup_iff]
    intro hnd
    have hsplit : pairKeys (df ++ [probeRow c]) =
        pairKeys df ++ [pairKey (probeRow c)] := by
      unfold pairKeys
      rw [List.map_append]
      rfl
    rw [hsplit] at hnd
    rcases List.nodup_append.mp hnd with ⟨_, _, hdisj⟩
    have hmem : pairKey r ∈ pairKeys df := List.mem_map_of_mem pairKey hr
    rw [← hkey] at hmem
    exact hdisj hmem (by simp)
  have hnone : addItem df c nc sp = none := by
    unfold addItem
    rw [if_pos hdup]
  refine ⟨hnone, ?_, ?_⟩
  · unfold altaResult
    rw [hnone]
    rfl
  · unfold altaSaved
    rw [hnone]
    rfl

theorem C4_witness :
    (∃ r ∈ c4Df,
      _norm_text (some r.descripcion) = _norm_text (some c4Cand.descripcion) ∧
      _norm_text (some r.ubicacion) = _norm_text (some c4Cand.ubicacion)) ∧
    addItem c4Df c4Cand [] true = none :=
  ⟨by decide, (C4_duplicate_add_rejected c4Df c4Cand [] true (by decide)).1⟩

/-- C2 counterexample: with the default strip-whitespace setting on, the
merge block re-normalizes the `ID Similar` column of the surviving rows,
so a record whose stored `ID Similar` is `" a "` does not keep all of its
fields: the claim's equality fails at this input. -/
theorem C2_counterexample :
    reconcile c2Df (c2Df.filter (fun r => !(r.id == targetId))) true [] true ≠
      c2Df.filter (fun r => !(r.id == targetId)) := by decide

/-- C2 (amended): with unique ids and `delete_allowed = true`, reconciling
the full set against the view missing exactly id `I-0002` removes exactly
that record and keeps every other record, with all fields unchanged except
that `ID Similar` is re-normalized under the active settings — hence
entirely unchanged whenever the stored `ID Similar` values are already
normalized. -/
theorem C2_delete_one_amended (df : List Record) (nc : Str) (sp : Bool)
    (hnd : (df.map (fun r => r.id)).Nodup) :
    (reconcile df (df.filter (fun r => !(r.id == targetId))) true nc sp =
      (df.filter (fun r => !(r.id == targetId))).map (fun r =>
        { r with idSimilar := _normalize_idsim (some r.idSimilar) nc sp })) ∧
    ((∀ r ∈ df, _normalize_idsim (some r.idSimilar) nc sp = r.idSimilar) →
      reconcile df (df.filter (fun r => !(r.id == targetId))) true nc sp =
        df.filter (fun r => !(r.id == targetId))) := by
  have hP : ∀ r s : Record, r.id = s.id →
      (!(r.id == targetId)) = (!(s.id == targetId)) := by
    intro r s h
    rw [h]
  have h1 := reconcile_filter_eq df (fun r => !(r.id == targetId)) hP hnd nc sp
  refine ⟨h1, ?_⟩
  intro hnorm
  rw [h1]
  have hpt : ∀ r ∈ df.filter (fun r => !(r.id == targetId)),
      ({ r with idSimilar := _normalize_idsim (some r.idSimilar) nc sp } : Record)
        = r := by
    intro r hr
    have hrd : r ∈ df := (List.mem_filter.mp hr).1
    rw [hnorm r hrd]
  conv_rhs => rw [← List.map_id (df.filter (fun r => !(r.id == targetId)))]
  exact List.map_congr_left (fun r hr => hpt r hr)

theorem C2_witness :
    ((c2Df.map (fun r => r.id)).Nodup) ∧
    (reconcile c2Df (c2Df.filter (fun r => !(r.id == targetId))) true [] true =
      (c2Df.filter (fun r => !(r.id == targetId))).map (fun r =>
        { r with idSimilar := _normalize_idsim (some r.idSimilar) [] true })) :=
  ⟨by decide, (C2_delete_one_amended c2Df [] true (by decide)).1⟩

set_option maxRecDepth 8192 in
/-- C7 counterexample: the load coercion
(`pd.to_numeric(...).fillna(0).astype(int)`) preserves negative numerals,
so a stored `Cantidad` of `"-5"` loads as the negative integer `-5`: loaded
quantities are not always non-negative. -/
theorem C7_counterexample :
    ((Except.toOption (_load_local (some tNegQty))).getD []).map
      (fun r => r.cantidad) = [(-5 : Int)] ∧
    ¬ (0 ≤ (-5 : Int)) :=
  ⟨by decide, by decide⟩

/-- C7 (amended): on load (either backend) a `Cantidad` cell that fails
numeric parsing (NaN) becomes `0`; the loaded quantities are all
non-negative whenever every raw `Cantidad` cell is non-numeric or an
unsigned numeral of value at most `2^53` — but a negative-signed numeral,
including exponent notation such as `"-1e3"`, loads as that negative
integer, and a non-finite cell makes the load fail instead. -/
theorem C7_quantity_amended :
    (∀ cols row, cellNum (getCell cols row colCant) = CellNum.nan →
      (rowToRecord cols row).cantidad = 0) ∧
    (∀ t recs, _load_local (some t) = Except.ok recs →
      (∀ row ∈ t.rows, qtyOkCell (getCell t.cols row colCant) = true) →
      ∀ r ∈ recs, 0 ≤ r.cantidad) ∧
    (∀ t, (∀ row ∈ t.rows, qtyOkCell (getCell t.cols row colCant) = true) →
      ∀ r ∈ _read_from_gsheets (GsState.table t), 0 ≤ r.cantidad) := by
  refine ⟨?_, ?_, ?_⟩
  · intro cols row h
    show qtyVal (getCell cols row colCant) = 0
    unfold qtyVal
    rw [h]
  · intro t recs heq hpos
    exact coerceTable_quantity heq hpos
  · intro t hpos r hr
    simp only [_read_from_gsheets] at hr
    rcases hct : coerceTable t with e | recs
    · rw [hct] at hr
      simp at hr
    · rw [hct] at hr
      exact coerceTable_quantity hct hpos r hr

set_option maxRecDepth 8192 in
theorem C7_witness :
    (∀ row ∈ tPosQty.rows, qtyOkCell (getCell tPosQty.cols row colCant) = true) ∧
    (∀ r ∈ [recPosQty], 0 ≤ r.cantidad) :=
  ⟨by decide, C7_quantity_amended.2.1 tPosQty [recPosQty] (by decide) (by decide)⟩

/-- C8 counterexample: the local loader catches only `FileNotFoundError`;
a present CSV whose header lacks a required column while a data row exists
makes `df[col] = []` raise a `ValueError` that propagates, instead of
returning the empty record set. -/
theorem C8_counterexample :
    _load_local (some tMissingCol) = Except.error () ∧
    _load_local (some tMissingCol) ≠ Except.ok [] :=
  ⟨by decide, by decide⟩

/-- C8 (amended): the spreadsheet loader always returns a record set
(empty on any failure, including a coercion failure); the local loader
returns the empty set on an absent file and a well-formed set whenever the
file has no data rows, or all required columns are present and every
`Cantidad` cell is finite after coercion — but on a present file with data
rows it raises when a required column is missing (`df[col] = []`) or when
a `Cantidad` cell is non-finite (`astype(int)` on `inf`), instead of
returning an empty set. -/
theorem C8_load_amended :
    (_read_from_gsheets GsState.failure = []) ∧
    (∀ t, coerceTable t = Except.error () → _read_from_gsheets (GsState.table t) = []) ∧
    (_load_local none = Except.ok []) ∧
    (∀ t : RawTable, t.rows = [] → _load_local (some t) = Except.ok []) ∧
    (∀ t : RawTable, (∀ c ∈ APP_COLUMNS, t.cols.contains c = true) →
      (∀ row ∈ t.rows, isInfCell (getCell t.cols row colCant) = false) →
      ∃ recs, _load_local (some t) = Except.ok recs) ∧
    (∀ t : RawTable, (∀ c ∈ APP_COLUMNS, t.cols.contains c = true) →
      t.rows.any (fun row => isInfCell (getCell t.cols row colCant)) = true →
      _load_local (some t) = Except.error ()) := by
  refine ⟨rfl, ?_, rfl, ?_, ?_, ?_⟩
  · intro t h
    show (match coerceTable t with
      | Except.ok r => r
      | Except.error _ => ([] : List Record)) = []
    rw [h]
  · intro t h
    show coerceTable t = Except.ok []
    unfold coerceTable
    rw [h]
    rfl
  · intro t hc hinf
    by_cases h1 : t.rows.isEmpty
    · refine ⟨[], ?_⟩
      show coerceTable t = Except.ok []
      unfold coerceTable
      rw [if_pos h1]
    · refine ⟨t.rows.map (rowToRecord t.cols), ?_⟩
      show coerceTable t = Except.ok (t.rows.map (rowToRecord t.cols))
      unfold coerceTable
      have hany : t.rows.any (fun row => isInfCell (getCell t.cols row colCant)) = false :=
        List.any_eq_false.mpr (fun row hrow => by simp [hinf row hrow])
      rw [if_neg h1, if_pos (List.all_eq_true.mpr hc), if_neg (by simp [hany])]
  · intro t hc hany
    show coerceTable t = Except.error ()
    have hne : ¬ t.rows.isEmpty = true := by
      intro h0
      have : t.rows = [] := by
        cases hr : t.rows with
        | nil => rfl
        | cons a r => rw [hr] at h0; simp at h0
      rw [this] at hany
      simp at hany
    unfold coerceTable
    rw [if_neg hne, if_pos (List.all_eq_true.mpr hc), if_pos hany]

set_option maxRecDepth 8192 in
theorem C8_witness :
    ((coerceTable tMissingCol = Except.error ()) ∧
      _read_from_gsheets (GsState.table tMissingCol) = []) ∧
    ((∀ c ∈ APP_COLUMNS, tInfQty.cols.contains c = true) ∧
      tInfQty.rows.any (fun row => isInfCell (getCell tInfQty.cols row colCant)) = true ∧
      _load_local (some tInfQty) = Except.error ()) :=
  ⟨⟨by decide, C8_load_amended.2.1 tMissingCol (by decide)⟩,
   ⟨by decide, by decide,
    C8_load_amended.2.2.2.2.2 tInfQty (by decide) (by decide)⟩⟩

end Inventario
